import Mathlib

/-!
Shallow embedding of hydronica/color-json (handler.go): a slog handler that
renders one log record as a single line of colorized JSON.  Machine strings
are Lean `String`s; Go byte-slicing in the renderer only ever removes ASCII
characters, so character-level modelling agrees with the byte-level source.
-/

set_option maxRecDepth 10000
set_option maxHeartbeats 1000000

namespace ColorJson

/-! ### ANSI color constants (handler.go lines 17-50) -/

def reset : String := "\x1b[0m"
def cyanColor : String := "\x1b[36m"
def greenColor : String := "\x1b[32m"
def yellowColor : String := "\x1b[33m"
def magentaColor : String := "\x1b[35m"
def whiteColor : String := "\x1b[37m"
def bWhiteColor : String := "\x1b[37;1m"
def bBlueColor : String := "\x1b[34;1m"
def bCyanColor : String := "\x1b[36;1m"
def bYellowColor : String := "\x1b[33;1m"
def bRedColor : String := "\x1b[31;1m"
def redColor : String := "\x1b[31m"
def blueColor : String := "\x1b[34m"
def grayColor : String := "\x1b[90m"
def noColor : String := ""

/-- `Colors` struct (handler.go lines 53-64). -/
structure Colors where
  string : String
  number : String
  boolean : String
  null : String
  key : String
  brace : String
  levelInfo : String
  levelDebug : String
  levelWarn : String
  levelError : String

/-- `ColorDefault` preset (handler.go lines 301-312). -/
def ColorDefault : Colors :=
  { string := whiteColor, number := whiteColor, boolean := whiteColor,
    null := whiteColor, key := grayColor, brace := bBlueColor,
    levelInfo := greenColor, levelDebug := whiteColor,
    levelWarn := yellowColor, levelError := redColor }

/-- The zero `Colors` value (`NoColor`, handler.go line 325). -/
def NoColor : Colors :=
  { string := "", number := "", boolean := "", null := "", key := "",
    brace := "", levelInfo := "", levelDebug := "", levelWarn := "",
    levelError := "" }

/-! ### slog values and attributes

`slog.Value` kinds actually exercised by this handler: string, 64-bit style
integers, bool, nil (`KindAny` with nil payload, also the zero `slog.Attr`
value), and groups.  Floats are not modelled (no claim depends on Go float
formatting).  An attribute is a key/value pair. -/

inductive Value where
  | vstr (s : String)
  | vint (n : Int)
  | vbool (b : Bool)
  | vnull
  | vgroup (attrs : List (String × Value))

abbrev Attr := String × Value

mutual

/-- Go `fmt` rendering of a `slog.Value` payload, as reached through
`fmt.Sprint(v)` in the default branch of `cJSON`: a group payload is a
`[]slog.Attr`, printed as `[k1=v1 k2=v2]` using `slog.Attr.String`
(`key=value`); a nil payload prints `<nil>`. -/
def sprintValue : Value → String
  | .vstr s => s
  | .vint n => toString n
  | .vbool b => if b then "true" else "false"
  | .vnull => "<nil>"
  | .vgroup g => "[" ++ sprintAttrList g ++ "]"

/-- Space-separated `key=value` rendering of a `[]slog.Attr`, as Go `fmt`
prints a slice whose elements have a `String` method. -/
def sprintAttrList : List Attr → String
  | [] => ""
  | [a] => a.1 ++ "=" ++ sprintValue a.2
  | a :: rest => a.1 ++ "=" ++ sprintValue a.2 ++ " " ++ sprintAttrList rest

end

/-! ### The scalar renderer `cJSON` (handler.go lines 282-298) -/

/-- `cJSON` writes `<keyColor>"key"<reset>:` then the value: strings quoted
verbatim (no escaping is performed by the source), integers and booleans via
`%v`, nil as `null`, and anything else (in this model: group values) as a
quoted `fmt.Sprint` fallback; every branch ends with a `,`. -/
def cJSON (key : String) (value : Value) (keyColor valueColor : String) : String :=
  keyColor ++ "\"" ++ key ++ "\"" ++ reset ++ ":" ++
  match value with
  | .vstr v => valueColor ++ "\"" ++ v ++ "\"" ++ reset ++ ","
  | .vint n => valueColor ++ toString n ++ reset ++ ","
  | .vbool b => valueColor ++ (if b then "true" else "false") ++ reset ++ ","
  | .vnull => valueColor ++ "null" ++ reset ++ ","
  | .vgroup g => valueColor ++ "\"" ++ sprintValue (.vgroup g) ++ "\"" ++ reset ++ ","

/-! ### Source formats, records, handler state -/

/-- `SrcFormat` (handler.go lines 328-334); `off` is the zero value, for
which the source switch emits nothing. -/
inductive SrcFormat where
  | off
  | srcFull
  | srcShortFile
  | srcLongFile

/-- A resolved `runtime.Frame` for a record with nonzero PC. -/
structure Frame where
  function : String
  file : String
  line : Int

/-- A wall-clock time in UTC, standing for Go `time.Time`. -/
structure DateTime where
  year : Nat
  month : Nat
  day : Nat
  hour : Nat
  minute : Nat
  second : Nat

def pad2 (n : Nat) : String := if n < 10 then "0" ++ toString n else toString n

def pad4 (n : Nat) : String :=
  if n < 10 then "000" ++ toString n
  else if n < 100 then "00" ++ toString n
  else if n < 1000 then "0" ++ toString n
  else toString n

def rfc3339Layout : String := "2006-01-02T15:04:05Z07:00"
def dateOnlyLayout : String := "2006-01-02"
def timeOnlyLayout : String := "15:04:05"

/-- Go `time.Time.Format` (stdlib, external to this repository), restricted
to the layouts the repository and its tests use — RFC3339, DateOnly and
TimeOnly — for times in UTC (RFC3339 renders the zone as `Z`). -/
def formatTime (layout : String) (t : DateTime) : String :=
  if layout = rfc3339Layout then
    pad4 t.year ++ "-" ++ pad2 t.month ++ "-" ++ pad2 t.day ++ "T" ++
      pad2 t.hour ++ ":" ++ pad2 t.minute ++ ":" ++ pad2 t.second ++ "Z"
  else if layout = dateOnlyLayout then
    pad4 t.year ++ "-" ++ pad2 t.month ++ "-" ++ pad2 t.day
  else
    pad2 t.hour ++ ":" ++ pad2 t.minute ++ ":" ++ pad2 t.second

/-- A `slog.Record`: time, level, message, optionally a resolved source
frame (`none` models PC == 0), and the attached attributes. -/
structure Record where
  time : DateTime
  level : Int
  msg : String
  source : Option Frame
  attrs : List Attr

/-- `ColorJSONHandler` together with its embedded `HandlerOptions`
(handler.go lines 67-95).  `level` models the `slog.Leveler` field (`none`
when unset); `replaceAttr` models the `ReplaceAttr` hook. -/
structure Handler where
  source : SrcFormat
  level : Option Int
  replaceAttr : Option (List String → Attr → Attr)
  timeFormat : String
  colors : Colors
  attrs : List Attr
  groups : List String

/-- slog level constants: DEBUG = -4, INFO = 0, WARN = 4, ERROR = 8. -/
def slogLevelDebug : Int := -4
def slogLevelInfo : Int := 0
def slogLevelWarn : Int := 4
def slogLevelError : Int := 8

/-- `Enabled` (handler.go lines 115-120): default minimum is INFO when no
level is configured. -/
def Enabled (h : Handler) (level : Int) : Bool :=
  match h.level with
  | none => decide (level ≥ slogLevelInfo)
  | some m => decide (level ≥ m)

/-- `WithAttrs` (handler.go lines 132-144): the child handler carries the
parent attributes followed by the new ones; the parent value is untouched. -/
def WithAttrs (h : Handler) (attrs : List Attr) : Handler :=
  { h with attrs := h.attrs ++ attrs }

/-- `WithGroup` (handler.go lines 147-159): the child handler carries the
parent group path with the new name appended. -/
def WithGroup (h : Handler) (name : String) : Handler :=
  { h with groups := h.groups ++ [name] }

/-- The `if h.ReplaceAttr != nil { attr = h.ReplaceAttr(groups, attr) }`
pattern used throughout the renderer. -/
def applyReplace (h : Handler) (groups : List String) (a : Attr) : Attr :=
  match h.replaceAttr with
  | none => a
  | some f => f groups a

/-- Go `strconv.Itoa` of a `slog.Level` offset with the `%+d` sign. -/
def plusFmt (n : Int) : String :=
  if n ≥ 0 then "+" ++ toString n else toString n

/-- `slog.Level.String` (stdlib): base severity name, with a `%+d` offset
appended when the level is not exactly a named one. -/
def levelString (l : Int) : String :=
  let str := fun (base : String) (val : Int) =>
    if val = 0 then base else base ++ plusFmt val
  if l < slogLevelInfo then str "DEBUG" (l - slogLevelDebug)
  else if l < slogLevelWarn then str "INFO" (l - slogLevelInfo)
  else if l < slogLevelError then str "WARN" (l - slogLevelWarn)
  else str "ERROR" (l - slogLevelError)

/-! ### The structural renderer (handler.go lines 161-279) -/

/-- The level switch in `coloredJSON` (handler.go lines 168-178): only the
four exact named levels emit a `level` field; any other level emits
nothing. -/
def levelPart (h : Handler) (l : Int) : String :=
  if l = slogLevelInfo then cJSON "level" (.vstr (levelString l)) h.colors.key h.colors.levelInfo
  else if l = slogLevelDebug then cJSON "level" (.vstr (levelString l)) h.colors.key h.colors.levelDebug
  else if l = slogLevelWarn then cJSON "level" (.vstr (levelString l)) h.colors.key h.colors.levelWarn
  else if l = slogLevelError then cJSON "level" (.vstr (levelString l)) h.colors.key h.colors.levelError
  else ""

/-- Go `filepath.Base`, restricted to slash-separated nonempty paths. -/
def baseName (s : String) : String := (s.splitOn "/").getLastD s

/-- The source switch in `coloredJSON` (handler.go lines 184-195). -/
def sourcePart (h : Handler) (r : Record) : String :=
  match r.source with
  | none => ""
  | some f =>
    match h.source with
    | .srcFull =>
        "\"source\":\x7b\"function\":\"" ++ f.function ++ "\",\"file\":\"" ++
          f.file ++ "\",\"line\":" ++ toString f.line ++ "\x7d"
    | .srcShortFile =>
        cJSON "file" (.vstr (baseName f.file ++ ":" ++ toString f.line)) h.colors.key bWhiteColor
    | .srcLongFile =>
        cJSON "file" (.vstr (f.file ++ ":" ++ toString f.line)) h.colors.key bWhiteColor
    | .off => ""

/-- Go `strings.HasSuffix(s, ",")`: the last character is a comma (the
renderer only ever checks against the one-character suffix `,`). -/
def strEndsWithComma (s : String) : Bool :=
  match s.data.getLast? with
  | some c => c == ','
  | none => false

/-- Go `content[:len(content)-1]`: drop the final character (the renderer
only ever slices off one ASCII character, so byte and character slicing
agree). -/
def strDropLast (s : String) : String := String.mk s.data.dropLast

/-- Recursion of `writeGroupedAttrs` (handler.go lines 253-279), walking the
suffix `groups.drop depth` of the group path (the source indexes with
`depth`; the suffix being consumed is the same sequence of names): each
remaining group opens `"name":{`, the attributes are written at the
innermost depth (after the `ReplaceAttr` hook, which receives the full
group path), and each group is closed after slicing off a trailing comma
when the buffer ends in one. -/
def writeGroupedAttrsAux (h : Handler) (attrs : List Attr) (groups : List String) :
    String → List String → String
  | buf, [] =>
    attrs.foldl (fun b a =>
      let a := applyReplace h groups a
      b ++ cJSON a.1 a.2 h.colors.key bWhiteColor) buf
  | buf, groupName :: rest =>
    let buf := buf ++ h.colors.key ++ "\"" ++ groupName ++ "\"" ++ reset ++ ":\x7b"
    let buf := writeGroupedAttrsAux h attrs groups buf rest
    let buf := if strEndsWithComma buf then strDropLast buf else buf
    buf ++ "\x7d,"

/-- `writeGroupedAttrs` (handler.go lines 253-279). -/
def writeGroupedAttrs (h : Handler) (buf : String) (attrs : List Attr)
    (groups : List String) (depth : Nat) : String :=
  writeGroupedAttrsAux h attrs groups buf (groups.drop depth)

/-- The no-group branch of the `writeAttrs` closure (handler.go lines
199-222): each attribute passes through the `ReplaceAttr` hook (with nil
group context); a group-valued attribute opens `"key":{`, writes its members
through the hook and `cJSON`, then unconditionally slices one character off
the buffer (the trailing comma of the last member — or the `{` itself when
the group has no members) and closes with `},`. -/
def writeAttrsFlat (h : Handler) (buf : String) (attrs : List Attr) : String :=
  attrs.foldl (fun b attr =>
    let attr := applyReplace h [] attr
    match attr.2 with
    | .vgroup members =>
        let b := b ++ h.colors.key ++ "\"" ++ attr.1 ++ "\"" ++ reset ++ ":\x7b"
        let b := members.foldl (fun b2 ga =>
          let ga := applyReplace h [] ga
          b2 ++ cJSON ga.1 ga.2 h.colors.key bWhiteColor) b
        strDropLast b ++ "\x7d,"
    | _ => b ++ cJSON attr.1 attr.2 h.colors.key bWhiteColor) buf

/-- The `writeAttrs` closure (handler.go lines 198-227). -/
def writeAttrs (h : Handler) (buf : String) (attrs : List Attr)
    (groups : List String) : String :=
  if groups.isEmpty then writeAttrsFlat h buf attrs
  else writeGroupedAttrs h buf attrs groups 0

/-- Go `strings.TrimRight(s, ",")`: every trailing comma removed. -/
def trimRightCommas (s : String) : String :=
  String.mk ((s.data.reverse.dropWhile (· == ',')).reverse)

/-- `coloredJSON` (handler.go lines 161-250).  The `colors` parameter is
carried as in the source, which nevertheless reads every color through
`h.ColorScheme`. -/
def coloredJSON (h : Handler) (r : Record) (colors : Colors) : String :=
  let buf := "\x7b"
  let buf := buf ++ cJSON "time" (.vstr (formatTime h.timeFormat r.time)) h.colors.key bWhiteColor
  let buf := buf ++ levelPart h r.level
  let buf := buf ++ cJSON "msg" (.vstr r.msg) h.colors.key bWhiteColor
  let buf := buf ++ sourcePart h r
  let buf := if h.attrs.isEmpty then buf else
    h.attrs.foldl (fun b attr =>
      let attr := applyReplace h [] attr
      b ++ cJSON attr.1 attr.2 h.colors.key bWhiteColor) buf
  let buf := if r.attrs.isEmpty then buf else writeAttrs h buf r.attrs h.groups
  trimRightCommas buf ++ "\x7d\n"

/-- `Handle` (handler.go lines 123-129): the line written to the output. -/
def Handle (h : Handler) (r : Record) : String :=
  coloredJSON h r h.colors

/-! ### Stripping ANSI color sequences

The tests strip colors with the regular expression `\033\[[0-9;]+m`; every
escape sequence this renderer can emit has exactly that well-formed shape,
so a two-state scanner suffices: outside a sequence, an ESC enters it;
inside, everything up to and including the closing `m` is dropped. -/

def stripColorsAux : List Char → Bool → List Char
  | [], _ => []
  | c :: rest, true =>
      if c = 'm' then stripColorsAux rest false else stripColorsAux rest true
  | c :: rest, false =>
      if c = '\x1b' then stripColorsAux rest true else c :: stripColorsAux rest false

def stripColors (s : String) : String :=
  String.mk (stripColorsAux s.data false)

/-! ### Substring check and a minified-JSON validity checker

`strContains s pat` decides whether `pat` occurs in `s`.  `isValidJson`
is a recursive-descent recognizer for (strict, minified) JSON text: no
whitespace, strings with the standard escapes and no raw control
characters, numbers, the three literals, objects and arrays. -/

def listIsPrefixCh : List Char → List Char → Bool
  | [], _ => true
  | _ :: _, [] => false
  | p :: ps, c :: cs => p == c && listIsPrefixCh ps cs

def listContainsCh (pat : List Char) : List Char → Bool
  | [] => pat.isEmpty
  | c :: rest => listIsPrefixCh pat (c :: rest) || listContainsCh pat rest

def strContains (s pat : String) : Bool := listContainsCh pat.data s.data

def isHexCh (c : Char) : Bool := c.isDigit || ('a' ≤ c && c ≤ 'f') || ('A' ≤ c && c ≤ 'F')

def isEscCh (c : Char) : Bool :=
  c = '"' || c = '\\' || c = '/' || c = 'b' || c = 'f' || c = 'n' || c = 'r' || c = 't'

/-- Recognize the tail of a JSON string (the opening quote already
consumed); returns the remaining input. -/
def jsonStringTail : List Char → Option (List Char)
  | [] => none
  | '"' :: rest => some rest
  | '\\' :: 'u' :: a :: b :: c :: d :: rest =>
      if isHexCh a && isHexCh b && isHexCh c && isHexCh d then jsonStringTail rest else none
  | '\\' :: c :: rest => if isEscCh c then jsonStringTail rest else none
  | c :: rest => if c.toNat < 32 then none else jsonStringTail rest

def dropDigits : List Char → List Char
  | c :: rest => if c.isDigit then dropDigits rest else c :: rest
  | [] => []

/-- One or more digits. -/
def jsonDigits : List Char → Option (List Char)
  | c :: rest => if c.isDigit then some (dropDigits rest) else none
  | [] => none

def jsonExpTail : List Char → Option (List Char)
  | '+' :: r => jsonDigits r
  | '-' :: r => jsonDigits r
  | cs => jsonDigits cs

def jsonExp : List Char → Option (List Char)
  | 'e' :: r => jsonExpTail r
  | 'E' :: r => jsonExpTail r
  | cs => some cs

def jsonFrac : List Char → Option (List Char)
  | '.' :: r => jsonDigits r
  | cs => some cs

/-- A JSON number after an optional leading minus sign. -/
def jsonNumber (cs : List Char) : Option (List Char) :=
  (jsonDigits cs).bind fun r => (jsonFrac r).bind jsonExp

mutual

def jsonValue : Nat → List Char → Option (List Char)
  | 0, _ => none
  | Nat.succ n, cs =>
    match cs with
    | '"' :: rest => jsonStringTail rest
    | '\x7b' :: rest => jsonObjectBody n rest
    | '[' :: rest => jsonArrayBody n rest
    | 't' :: 'r' :: 'u' :: 'e' :: rest => some rest
    | 'f' :: 'a' :: 'l' :: 's' :: 'e' :: rest => some rest
    | 'n' :: 'u' :: 'l' :: 'l' :: rest => some rest
    | '-' :: rest => jsonNumber rest
    | c :: rest => if c.isDigit then jsonNumber (c :: rest) else none
    | [] => none

def jsonObjectBody : Nat → List Char → Option (List Char)
  | 0, _ => none
  | Nat.succ n, cs =>
    match cs with
    | '\x7d' :: rest => some rest
    | _ => jsonMembers n cs

def jsonMembers : Nat → List Char → Option (List Char)
  | 0, _ => none
  | Nat.succ n, cs =>
    match cs with
    | '"' :: rest =>
      match jsonStringTail rest with
      | none => none
      | some r2 =>
        match r2 with
        | ':' :: r3 =>
          match jsonValue n r3 with
          | none => none
          | some r4 =>
            match r4 with
            | ',' :: r5 => jsonMembers n r5
            | '\x7d' :: r5 => some r5
            | _ => none
        | _ => none
    | _ => none

def jsonArrayBody : Nat → List Char → Option (List Char)
  | 0, _ => none
  | Nat.succ n, cs =>
    match cs with
    | ']' :: rest => some rest
    | _ => jsonElems n cs

def jsonElems : Nat → List Char → Option (List Char)
  | 0, _ => none
  | Nat.succ n, cs =>
    match jsonValue n cs with
    | none => none
    | some r =>
      match r with
      | ',' :: r2 => jsonElems n r2
      | ']' :: r2 => some r2
      | _ => none

end

/-- `s` is one complete value of minified JSON text. -/
def isValidJson (s : String) : Bool :=
  match jsonValue (2 * s.length + 8) s.data with
  | some [] => true
  | _ => false

/-! ### Concrete fixtures used by the claim theorems -/

/-- 2024-05-28T12:34:56 UTC. -/
def testTime : DateTime := ⟨2024, 5, 28, 12, 34, 56⟩

/-- A handler with the default palette, RFC3339 timestamps, no configured
level, no hook, and empty context. -/
def baseHandler : Handler :=
  { source := .off, level := none, replaceAttr := none,
    timeFormat := rfc3339Layout, colors := ColorDefault,
    attrs := [], groups := [] }

/-- A record carrying only level INFO, message `msg` and the given
attributes, at the test time, with no source location. -/
def mkRec (msg : String) (attrs : List Attr) : Record :=
  ⟨testTime, slogLevelInfo, msg, none, attrs⟩

/-! ### Severity enumeration (spec order) for the Enabled contract -/

/-- The four named severities in the order the spec gives them. -/
inductive Severity where
  | debug
  | info
  | warn
  | error

/-- The slog level each named severity denotes. -/
def sevLevel : Severity → Int
  | .debug => slogLevelDebug
  | .info => slogLevelInfo
  | .warn => slogLevelWarn
  | .error => slogLevelError

/-- Rank of a severity in the order DEBUG < INFO < WARN < ERROR, written
from the words of the spec. -/
def sevRank : Severity → Nat
  | .debug => 0
  | .info => 1
  | .warn => 2
  | .error => 3

/-- `baseHandler` with a given configured minimum level. -/
def mkLevelHandler (lv : Option Int) : Handler := { baseHandler with level := lv }

/-- The `ReplaceAttr` hook used for the C9 scenario: it suppresses the
attribute keyed `secret` by returning the zero `slog.Attr` (empty key, nil
value) and leaves every other attribute alone. -/
def suppressHook : List String → Attr → Attr :=
  fun _ a => if a.1 = "secret" then ("", Value.vnull) else a

/-- `baseHandler` with the suppressing hook installed. -/
def hookHandler : Handler := { baseHandler with replaceAttr := some suppressHook }

/-! ### Claim theorems -/

/-- C2: a record with severity INFO, timestamp 2024-05-28T12:34:56Z under
the RFC3339 format, message "hello", one string attribute foo="bar", no
groups and no source renders, after stripping the color escapes, exactly
the compact JSON object followed by one newline. -/
theorem c2_end_to_end_basic :
    stripColors (Handle baseHandler (mkRec "hello" [("foo", Value.vstr "bar")]))
      = "\x7b\"time\":\"2024-05-28T12:34:56Z\",\"level\":\"INFO\",\"msg\":\"hello\",\"foo\":\"bar\"\x7d\n" := by
  decide

/-- C1: the renderer does not escape a double quote occurring in the
message, so the stripped line for a record whose message contains `"` is
not valid JSON: the claim fails on this input (the code, contradicting the
documented invariant, emits the quote verbatim). -/
theorem c1_quote_in_msg_breaks_json :
    stripColors (Handle baseHandler (mkRec "he\"llo" []))
      = "\x7b\"time\":\"2024-05-28T12:34:56Z\",\"level\":\"INFO\",\"msg\":\"he\"llo\"\x7d\n"
    ∧ isValidJson (strDropLast (stripColors (Handle baseHandler (mkRec "he\"llo" [])))) = false := by
  exact ⟨by decide, by decide⟩

/-- C3: `cJSON` quotes a string value verbatim, so a value containing an
embedded `"` is rendered without any escaping and the resulting line is
not valid JSON, contrary to the claim. -/
theorem c3_embedded_quote_unescaped :
    stripColors (cJSON "k" (Value.vstr "a\"b") ColorDefault.key bWhiteColor) = "\"k\":\"a\"b\","
    ∧ stripColors (Handle baseHandler (mkRec "m" [("k", Value.vstr "a\"b")]))
      = "\x7b\"time\":\"2024-05-28T12:34:56Z\",\"level\":\"INFO\",\"msg\":\"m\",\"k\":\"a\"b\"\x7d\n"
    ∧ isValidJson (strDropLast (stripColors (Handle baseHandler (mkRec "m" [("k", Value.vstr "a\"b")])))) = false := by
  refine ⟨by decide, by decide, by decide⟩

/-- C4: deriving child handlers never affects the parent or siblings: the
derived state is the parent state plus the addition (structurally, for
every handler), and in a concrete render the sibling derived with A shows A
but not B, the sibling derived with B shows B but not A, and a render from
the base handler itself shows neither. -/
theorem c4_context_isolation :
    (∀ (hd : Handler) (newAttrs : List Attr),
      (WithAttrs hd newAttrs).attrs = hd.attrs ++ newAttrs ∧ (WithAttrs hd newAttrs).groups = hd.groups)
    ∧ (∀ (hd : Handler) (n : String),
      (WithGroup hd n).groups = hd.groups ++ [n] ∧ (WithGroup hd n).attrs = hd.attrs)
    ∧ strContains (stripColors (Handle (WithAttrs baseHandler [("a_key", Value.vstr "av")]) (mkRec "hello" []))) "\"a_key\":\"av\"" = true
    ∧ strContains (stripColors (Handle (WithAttrs baseHandler [("a_key", Value.vstr "av")]) (mkRec "hello" []))) "b_key" = false
    ∧ strContains (stripColors (Handle (WithAttrs baseHandler [("b_key", Value.vstr "bv")]) (mkRec "hello" []))) "\"b_key\":\"bv\"" = true
    ∧ strContains (stripColors (Handle (WithAttrs baseHandler [("b_key", Value.vstr "bv")]) (mkRec "hello" []))) "a_key" = false
    ∧ strContains (stripColors (Handle baseHandler (mkRec "hello" []))) "a_key" = false
    ∧ strContains (stripColors (Handle baseHandler (mkRec "hello" []))) "b_key" = false := by
  refine ⟨fun hd newAttrs => ⟨rfl, rfl⟩, fun hd n => ⟨rfl, rfl⟩,
    by decide, by decide, by decide, by decide, by decide, by decide⟩

/-- C5: a handler derived by WithGroup "a" then WithGroup "b", rendering a
record with the single attribute x=1, nests outer-to-inner: the stripped
line contains `"a":{"b":{"x":1}}}` with the braces closed outer-last, and
never the reversed nesting. -/
theorem c5_group_nesting_order :
    stripColors (Handle (WithGroup (WithGroup baseHandler "a") "b") (mkRec "hello" [("x", Value.vint 1)]))
      = "\x7b\"time\":\"2024-05-28T12:34:56Z\",\"level\":\"INFO\",\"msg\":\"hello\",\"a\":\x7b\"b\":\x7b\"x\":1\x7d\x7d\x7d\n"
    ∧ strContains (stripColors (Handle (WithGroup (WithGroup baseHandler "a") "b") (mkRec "hello" [("x", Value.vint 1)]))) "\"a\":\x7b\"b\":\x7b\"x\":1\x7d\x7d\x7d" = true
    ∧ strContains (stripColors (Handle (WithGroup (WithGroup baseHandler "a") "b") (mkRec "hello" [("x", Value.vint 1)]))) "\"b\":\x7b\"a\"" = false := by
  refine ⟨by decide, by decide, by decide⟩

/-- C6: for every configured minimum severity m and event severity s,
`Enabled` returns true exactly when the rank of s is at least the rank of m
in the order DEBUG < INFO < WARN < ERROR; with no configured level the
handler behaves as if the minimum were INFO, so DEBUG is suppressed by
default. -/
theorem c6_enabled_iff_severity_order :
    (∀ m s : Severity,
      Enabled (mkLevelHandler (some (sevLevel m))) (sevLevel s) = true ↔ sevRank m ≤ sevRank s)
    ∧ (∀ s : Severity,
      Enabled (mkLevelHandler none) (sevLevel s) = true ↔ sevRank Severity.info ≤ sevRank s)
    ∧ Enabled (mkLevelHandler none) slogLevelDebug = false := by
  refine ⟨fun m s => ?_, fun s => ?_, by decide⟩
  · cases m <;> cases s <;> decide
  · cases s <;> decide

/-- C7: a group-valued record attribute with zero members does not render
as an empty object: the buffer surgery slices off the `{` it just opened
and the stripped line contains `"g":}`, which is not valid JSON; and a
handler whose group path is nonempty simply omits the group when the
record carries no attributes.  Both contradict the claim. -/
theorem c7_empty_group_malformed :
    stripColors (Handle baseHandler (mkRec "m" [("g", Value.vgroup [])]))
      = "\x7b\"time\":\"2024-05-28T12:34:56Z\",\"level\":\"INFO\",\"msg\":\"m\",\"g\":\x7d\x7d\n"
    ∧ isValidJson (strDropLast (stripColors (Handle baseHandler (mkRec "m" [("g", Value.vgroup [])])))) = false
    ∧ stripColors (Handle (WithGroup baseHandler "g") (mkRec "m" []))
      = "\x7b\"time\":\"2024-05-28T12:34:56Z\",\"level\":\"INFO\",\"msg\":\"m\"\x7d\n"
    ∧ strContains (stripColors (Handle (WithGroup baseHandler "g") (mkRec "m" []))) "\"g\"" = false := by
  refine ⟨by decide, by decide, by decide, by decide⟩

/-- C8 counterexample: a group-valued attribute persisted via `WithAttrs`
is not rendered as a nested object at the point it occurs — the renderer
sends persisted attributes straight to `cJSON`, whose fallback stringifies
the group, so the output carries `"g":"[x=1]"` and no `"g":{`. -/
theorem c8_persisted_group_stringified :
    stripColors (Handle (WithAttrs baseHandler [("g", Value.vgroup [("x", Value.vint 1)])]) (mkRec "m" []))
      = "\x7b\"time\":\"2024-05-28T12:34:56Z\",\"level\":\"INFO\",\"msg\":\"m\",\"g\":\"[x=1]\"\x7d\n"
    ∧ strContains (stripColors (Handle (WithAttrs baseHandler [("g", Value.vgroup [("x", Value.vint 1)])]) (mkRec "m" []))) "\"g\":\x7b" = false := by
  exact ⟨by decide, by decide⟩

/-- C8 amended: only a group-valued attribute attached directly on the
record and rendered with an empty group path becomes a nested object, one
level deep with its members rendered by the scalar rules; a group value
persisted via WithAttrs, occurring under a non-empty group path, or nested
inside another group value is rendered by the fallback as one quoted
string. -/
theorem c8_group_rendering_depth_one :
    stripColors (Handle baseHandler (mkRec "m" [("g", Value.vgroup [("x", Value.vint 1), ("s", Value.vstr "y")])]))
      = "\x7b\"time\":\"2024-05-28T12:34:56Z\",\"level\":\"INFO\",\"msg\":\"m\",\"g\":\x7b\"x\":1,\"s\":\"y\"\x7d\x7d\n"
    ∧ stripColors (Handle baseHandler (mkRec "m" [("g", Value.vgroup [("inner", Value.vgroup [("x", Value.vint 1)])])]))
      = "\x7b\"time\":\"2024-05-28T12:34:56Z\",\"level\":\"INFO\",\"msg\":\"m\",\"g\":\x7b\"inner\":\"[x=1]\"\x7d\x7d\n"
    ∧ stripColors (Handle (WithGroup baseHandler "p") (mkRec "m" [("g", Value.vgroup [("x", Value.vint 1)])]))
      = "\x7b\"time\":\"2024-05-28T12:34:56Z\",\"level\":\"INFO\",\"msg\":\"m\",\"p\":\x7b\"g\":\"[x=1]\"\x7d\x7d\n" := by
  refine ⟨by decide, by decide, by decide⟩

/-- C9: an attribute the `ReplaceAttr` hook suppresses (returns with an
empty key, the zero `slog.Attr`) still appears in the rendered line as the
field `"":null` — the code never checks for the empty-key marker — which
contradicts the claim that suppressed attributes do not appear. -/
theorem c9_suppressed_attr_still_rendered :
    stripColors (Handle hookHandler (mkRec "m" [("a", Value.vint 1), ("secret", Value.vstr "x"), ("b", Value.vint 2)]))
      = "\x7b\"time\":\"2024-05-28T12:34:56Z\",\"level\":\"INFO\",\"msg\":\"m\",\"a\":1,\"\":null,\"b\":2\x7d\n"
    ∧ strContains (stripColors (Handle hookHandler (mkRec "m" [("a", Value.vint 1), ("secret", Value.vstr "x"), ("b", Value.vint 2)]))) "\"\":null" = true := by
  exact ⟨by decide, by decide⟩

/-- The level switch emits nothing for a level distinct from the four
standard ones. -/
theorem levelPart_eq_empty (h : Handler) (l : Int)
    (h1 : l ≠ slogLevelInfo) (h2 : l ≠ slogLevelDebug)
    (h3 : l ≠ slogLevelWarn) (h4 : l ≠ slogLevelError) :
    levelPart h l = "" := by
  simp [levelPart, h1, h2, h3, h4]

/-- C10: a record whose level is none of the four standard severities
renders with no `level` field at all, while time, message and attributes
are still rendered. -/
theorem c10_nonstandard_level_no_level_field (l : Int)
    (h1 : l ≠ slogLevelInfo) (h2 : l ≠ slogLevelDebug)
    (h3 : l ≠ slogLevelWarn) (h4 : l ≠ slogLevelError) :
    stripColors (Handle baseHandler ⟨testTime, l, "hello", none, [("foo", Value.vstr "bar")]⟩)
      = "\x7b\"time\":\"2024-05-28T12:34:56Z\",\"msg\":\"hello\",\"foo\":\"bar\"\x7d\n" := by
  have hl : levelPart baseHandler l = "" := levelPart_eq_empty baseHandler l h1 h2 h3 h4
  simp only [Handle, coloredJSON, hl, sourcePart]
  decide

/-- C10 witness: the INFO+1 level (1) renders with no `level` field. -/
theorem c10_nonstandard_level_witness :
    stripColors (Handle baseHandler ⟨testTime, 1, "hello", none, [("foo", Value.vstr "bar")]⟩)
      = "\x7b\"time\":\"2024-05-28T12:34:56Z\",\"msg\":\"hello\",\"foo\":\"bar\"\x7d\n" :=
  c10_nonstandard_level_no_level_field 1 (by decide) (by decide) (by decide) (by decide)

end ColorJson
